import Mathlib

/-
  Verification of the configuration cascade, release resolution, archive
  extraction and repository initialization logic of the `backup` program
  (package main).  Strings are modelled as lists of characters; the
  functions below are direct translations of the Go source.
-/

set_option maxHeartbeats 1000000

namespace Backup

/-- Strings of the Go program, modelled as lists of characters. -/
abbrev Str := List Char

/-- Model of strings.TrimPrefix: drop pre from the front of s when it is a
front segment of s, otherwise return s unchanged. -/
def trimPfx (s pre : Str) : Str :=
  if pre.isPrefixOf s then s.drop pre.length else s

/-- Model of strings.HasPrefix as used by expandUser. -/
def hasPfx (s pre : Str) : Bool :=
  pre.isPrefixOf s

/-- Split a path on the '/' separator character. -/
def splitSlash : Str → List Str
  | [] => [[]]
  | c :: cs =>
    let rest := splitSlash cs
    if c = '/' then [] :: rest
    else
      match rest with
      | [] => [[c]]
      | h :: t => (c :: h) :: t

/-- Join path elements with the '/' separator character. -/
def joinSlash : List Str → Str
  | [] => []
  | [x] => x
  | x :: xs => x ++ '/' :: joinSlash xs

/-- Stack-based processing of path elements, equivalent to the lexical loop
of Go's path/filepath.Clean: empty and dot elements vanish, a dot-dot
element pops the previous element, except that on a rooted path a leading
dot-dot vanishes and on a relative path leading dot-dots accumulate. -/
def cleanElems (rooted : Bool) : List Str → List Str → List Str
  | stack, [] => stack.reverse
  | stack, e :: rest =>
    if e = ([] : Str) ∨ e = ['.'] then cleanElems rooted stack rest
    else if e = ['.', '.'] then
      match stack with
      | top :: s2 =>
        if top = ['.', '.'] then cleanElems rooted (e :: top :: s2) rest
        else cleanElems rooted s2 rest
      | [] => if rooted then cleanElems rooted [] rest else cleanElems rooted [e] rest
    else cleanElems rooted (e :: stack) rest

/-- Model of Go's filepath.Clean for the slash separator. -/
def goClean (p : Str) : Str :=
  if p = ([] : Str) then ['.']
  else
    let rooted := p.head? = some '/'
    let elems := cleanElems rooted [] (splitSlash p)
    let out := (if rooted then ['/'] else []) ++ joinSlash elems
    if out = ([] : Str) then ['.'] else out

/-- Model of Go's two-argument filepath.Join: empty elements are skipped
before joining, and the joined string is cleaned. -/
def goJoin (a b : Str) : Str :=
  if a = ([] : Str) then
    if b = ([] : Str) then [] else goClean b
  else goClean (a ++ '/' :: b)

/-- Translation of expandUser: a leading tilde sends the path, with a
leading tilde-slash stripped, under the user's home directory; when the
home directory lookup fails, or without a leading tilde, the path is
returned unchanged.  home = none models an os.UserHomeDir error. -/
def expandUser (home : Option Str) (p : Str) : Str :=
  if hasPfx p ['~'] then
    match home with
    | some h => goJoin h (trimPfx p ['~', '/'])
    | none => p
  else p

/-- Translation of the config struct: repository, password, backup paths
and the notification-channel fields, in declaration order. -/
structure Cfg where
  repo : Str
  password : Str
  paths : List Str
  pushoverToken : Str
  pushoverUser : Str
  emailServer : Str
  emailUser : Str
  emailPassword : Str
  emailFrom : Str
  emailTo : Str
deriving DecidableEq

/-- Translation of defaultEmbeddedConfig; home is the string returned by
os.UserHomeDir, the empty string when that lookup failed. -/
def defaultEmbeddedConfig (home : Str) : Cfg :=
  { repo := "~/tmp/test-backup".toList
    password := "test password".toList
    paths := [goJoin home "Documents".toList,
              goJoin home "Pictures".toList,
              goJoin home "Desktop".toList]
    pushoverToken := []
    pushoverUser := []
    emailServer := []
    emailUser := []
    emailPassword := []
    emailFrom := []
    emailTo := [] }

/-- JSON values of the Pastebin document, as far as getConfig inspects
them: a string, an array, or anything else. -/
inductive JVal where
  | jstr (s : Str)
  | jarr (xs : List JVal)
  | jother

/-- A decoded JSON object: association list from keys to values. -/
abbrev JObj := List (Str × JVal)

/-- Key of the repository field in the Pastebin document. -/
def keyResticRepo : Str := "restic-repo".toList
/-- Key of the password field in the Pastebin document. -/
def keyResticPassword : Str := "restic-repo-password".toList
/-- Key of the paths field. -/
def keyPaths : Str := "paths".toList
/-- Key of the Pushover token field. -/
def keyPushoverToken : Str := "pushover-token".toList
/-- Key of the Pushover user field. -/
def keyPushoverUser : Str := "pushover-user".toList
/-- Key of the email server field. -/
def keyEmailServer : Str := "email-server".toList
/-- Key of the email user field. -/
def keyEmailUser : Str := "email-user".toList
/-- Key of the email password field. -/
def keyEmailPassword : Str := "email-password".toList
/-- Key of the email from field. -/
def keyEmailFrom : Str := "email-from".toList
/-- Key of the email to field. -/
def keyEmailTo : Str := "email-to".toList

/-- Block of getConfig applying the Pastebin repository value when the
repository environment variable was not set and the value is a string. -/
def pbApplyRepo (pb : JObj) (repoEnvSet : Bool) (cfg : Cfg) : Cfg :=
  if !repoEnvSet then
    match List.lookup keyResticRepo pb with
    | some (.jstr v) => { cfg with repo := v }
    | _ => cfg
  else cfg

/-- Block of getConfig applying the Pastebin password value when the
password environment variable was not set and the value is a string. -/
def pbApplyPassword (pb : JObj) (passEnvSet : Bool) (cfg : Cfg) : Cfg :=
  if !passEnvSet then
    match List.lookup keyResticPassword pb with
    | some (.jstr v) => { cfg with password := v }
    | _ => cfg
  else cfg

/-- Gather the string entries of a JSON array in order, skipping entries
of any other type, as the paths loop of getConfig does. -/
def collectStringPaths : List JVal → List Str
  | [] => []
  | .jstr s :: rest => s :: collectStringPaths rest
  | .jarr _ :: rest => collectStringPaths rest
  | .jother :: rest => collectStringPaths rest

/-- Block of getConfig applying the Pastebin paths array: its string
entries replace the current paths only when at least one was gathered. -/
def pbApplyPaths (pb : JObj) (cfg : Cfg) : Cfg :=
  match List.lookup keyPaths pb with
  | some (.jarr v) =>
    let paths := collectStringPaths v
    if paths.length > 0 then { cfg with paths := paths } else cfg
  | _ => cfg

/-- Block of getConfig applying the Pastebin Pushover token. -/
def pbApplyPushoverToken (pb : JObj) (cfg : Cfg) : Cfg :=
  match List.lookup keyPushoverToken pb with
  | some (.jstr v) => { cfg with pushoverToken := v }
  | _ => cfg

/-- Block of getConfig applying the Pastebin Pushover user. -/
def pbApplyPushoverUser (pb : JObj) (cfg : Cfg) : Cfg :=
  match List.lookup keyPushoverUser pb with
  | some (.jstr v) => { cfg with pushoverUser := v }
  | _ => cfg

/-- Block of getConfig applying the Pastebin email server. -/
def pbApplyEmailServer (pb : JObj) (cfg : Cfg) : Cfg :=
  match List.lookup keyEmailServer pb with
  | some (.jstr v) => { cfg with emailServer := v }
  | _ => cfg

/-- Block of getConfig applying the Pastebin email user. -/
def pbApplyEmailUser (pb : JObj) (cfg : Cfg) : Cfg :=
  match List.lookup keyEmailUser pb with
  | some (.jstr v) => { cfg with emailUser := v }
  | _ => cfg

/-- Block of getConfig applying the Pastebin email password. -/
def pbApplyEmailPassword (pb : JObj) (cfg : Cfg) : Cfg :=
  match List.lookup keyEmailPassword pb with
  | some (.jstr v) => { cfg with emailPassword := v }
  | _ => cfg

/-- Block of getConfig applying the Pastebin email sender. -/
def pbApplyEmailFrom (pb : JObj) (cfg : Cfg) : Cfg :=
  match List.lookup keyEmailFrom pb with
  | some (.jstr v) => { cfg with emailFrom := v }
  | _ => cfg

/-- Block of getConfig applying the Pastebin email recipient. -/
def pbApplyEmailTo (pb : JObj) (cfg : Cfg) : Cfg :=
  match List.lookup keyEmailTo pb with
  | some (.jstr v) => { cfg with emailTo := v }
  | _ => cfg

/-- The success branch of the Pastebin section of getConfig: the field
blocks applied in source order. -/
def applyPastebin (pb : JObj) (repoEnvSet passEnvSet : Bool) (cfg : Cfg) : Cfg :=
  pbApplyEmailTo pb (pbApplyEmailFrom pb (pbApplyEmailPassword pb
    (pbApplyEmailUser pb (pbApplyEmailServer pb (pbApplyPushoverUser pb
      (pbApplyPushoverToken pb (pbApplyPaths pb
        (pbApplyPassword pb passEnvSet (pbApplyRepo pb repoEnvSet cfg)))))))))

/-- Outcome of os.ReadFile on the local cache file, with a successful read
carrying the result of decoding its bytes as JSON (none when the bytes are
not a JSON object). -/
inductive FileState where
  | notExist
  | readError
  | content (decoded : Option JObj)

/-- Model of json.MarshalIndent on the config struct: every field is
serialized under its JSON tag, in declaration order. -/
def marshalConfig (cfg : Cfg) : JObj :=
  [(("repo".toList : Str), JVal.jstr cfg.repo),
   ("password".toList, JVal.jstr cfg.password),
   (keyPaths, JVal.jarr (cfg.paths.map JVal.jstr)),
   (keyPushoverToken, JVal.jstr cfg.pushoverToken),
   (keyPushoverUser, JVal.jstr cfg.pushoverUser),
   (keyEmailServer, JVal.jstr cfg.emailServer),
   (keyEmailUser, JVal.jstr cfg.emailUser),
   (keyEmailPassword, JVal.jstr cfg.emailPassword),
   (keyEmailFrom, JVal.jstr cfg.emailFrom),
   (keyEmailTo, JVal.jstr cfg.emailTo)]

/-- Read a string field during unmarshalling: an absent key leaves the
zero value, a string is taken, any other type is a decode error. -/
def jStrField (pb : JObj) (key : Str) : Option Str :=
  match List.lookup key pb with
  | none => some []
  | some (.jstr v) => some v
  | some _ => none

/-- Decode a JSON array all of whose entries must be strings. -/
def asStrList : List JVal → Option (List Str)
  | [] => some []
  | .jstr s :: rest => (asStrList rest).map (fun l => s :: l)
  | _ => none

/-- Read the paths field during unmarshalling. -/
def jPathsField (pb : JObj) : Option (List Str) :=
  match List.lookup keyPaths pb with
  | none => some []
  | some (.jarr v) => asStrList v
  | some _ => none

/-- Model of json.Unmarshal into the config struct: unknown keys are
ignored, absent keys leave zero values, and a type mismatch on any known
field fails the whole decode. -/
def unmarshalConfig (j : JObj) : Option Cfg :=
  match jStrField j "repo".toList, jStrField j "password".toList, jPathsField j,
        jStrField j keyPushoverToken, jStrField j keyPushoverUser,
        jStrField j keyEmailServer, jStrField j keyEmailUser,
        jStrField j keyEmailPassword, jStrField j keyEmailFrom,
        jStrField j keyEmailTo with
  | some r, some pw, some ps, some pt, some pu, some es, some eu, some ep, some ef, some et =>
    some ⟨r, pw, ps, pt, pu, es, eu, ep, ef, et⟩
  | _, _, _, _, _, _, _, _, _, _ => none

/-- The local-file section of getConfig on a successfully decoded file
config: non-empty repository and password and a non-empty paths sequence
override the resolved values. -/
def applyFile (fcfg : Cfg) (cfg : Cfg) : Cfg :=
  let cfg1 := if fcfg.repo ≠ ([] : Str) then { cfg with repo := fcfg.repo } else cfg
  let cfg2 := if fcfg.password ≠ ([] : Str) then { cfg1 with password := fcfg.password } else cfg1
  if fcfg.paths.length > 0 then { cfg2 with paths := fcfg.paths } else cfg2

/-- The external state getConfig consults: the home directory (none when
os.UserHomeDir fails), the two environment variables as reported by
os.LookupEnv, the outcome of the Pastebin fetch, and the local cache
file. -/
structure World where
  home : Option Str
  repoEnv : Option Str
  passEnv : Option Str
  pastebin : Except Unit JObj
  file : FileState

/-- What getConfig produces: the resolved configuration, how many Pastebin
fetches it performed, and the JSON object written to the cache file when a
write occurred. -/
structure GetConfigResult where
  cfg : Cfg
  pastebinFetches : Nat
  written : Option JObj

/-- Translation of getConfig: seed with the embedded defaults, overlay the
environment variables that are present, fetch the Pastebin document unless
both were set and overlay it on success, then let a decodable local cache
file override non-empty fields, or write the resolved configuration when
the cache file does not exist. -/
def getConfig (w : World) : GetConfigResult :=
  let cfg0 := defaultEmbeddedConfig (w.home.getD [])
  let repoEnvSet := w.repoEnv.isSome
  let passEnvSet := w.passEnv.isSome
  let cfg1 := match w.repoEnv with
    | some v => { cfg0 with repo := v }
    | none => cfg0
  let cfg2 := match w.passEnv with
    | some v => { cfg1 with password := v }
    | none => cfg1
  let fetches := if !(repoEnvSet && passEnvSet) then 1 else 0
  let cfg3 :=
    if !(repoEnvSet && passEnvSet) then
      match w.pastebin with
      | .error _ => cfg2
      | .ok pb => applyPastebin pb repoEnvSet passEnvSet cfg2
    else cfg2
  match w.file with
  | .notExist => ⟨cfg3, fetches, some (marshalConfig cfg3)⟩
  | .readError => ⟨cfg3, fetches, none⟩
  | .content none => ⟨cfg3, fetches, none⟩
  | .content (some j) =>
    match unmarshalConfig j with
    | some fcfg => ⟨applyFile fcfg cfg3, fetches, none⟩
    | none => ⟨cfg3, fetches, none⟩

/-- A release asset: a name and a download URL, as decoded from the
releases endpoint (a missing URL decodes to the empty string). -/
structure Asset where
  name : Str
  browserDownloadURL : Str
deriving DecidableEq

/-- The release struct: tag name and asset list. -/
structure Release where
  tagName : Str
  assets : List Asset
deriving DecidableEq

/-- Asset-name construction of downloadRestic: strip a leading v from the
tag, then restic with version, OS and architecture joined by underscores,
with the zip extension on windows and bz2 elsewhere. -/
def targetAssetName (tagName goos arch : Str) : Str :=
  let version := trimPfx tagName ['v']
  let ext := if goos = "windows".toList then ".zip".toList else ".bz2".toList
  "restic_".toList ++ version ++ ['_'] ++ goos ++ ['_'] ++ arch ++ ext

/-- The asset scan loop of downloadRestic: the download URL starts empty
and takes the URL of the first asset whose name equals the target, the
loop breaking there. -/
def findAssetURL (assets : List Asset) (target : Str) : Str :=
  match assets with
  | [] => []
  | a :: rest => if a.name = target then a.browserDownloadURL else findAssetURL rest target

/-- Release resolution of downloadRestic: build the target asset name,
scan the assets, and fail with the not-found message carrying the target
name when the scanned URL is still empty. -/
def resolveAssetURL (rel : Release) (goos arch : Str) : Except Str Str :=
  let target := targetAssetName rel.tagName goos arch
  let downloadURL := findAssetURL rel.assets target
  if downloadURL = ([] : Str) then .error target else .ok downloadURL

/-- The zip branch of downloadRestic over the archive's file index, each
entry carrying its name and decompressed content: the loop writes the
content of the first entry named restic.exe and breaks; the branch
returns success either way.  The returned option is the content written
to the destination file, none when no write happened. -/
def zipWriteLoop (files : List (Str × Str)) : Option Str :=
  match files with
  | [] => none
  | f :: rest => if f.1 = "restic.exe".toList then some f.2 else zipWriteLoop rest

/-- Translation of ensureRepo: expand the repository path, succeed without
running anything when the config marker file inside it exists, otherwise
run the init command of the external tool and propagate its exit status.
statOk models os.Stat succeeding on a path; initResult models the exit
status of the external init command.  The second component counts
invocations of the external tool. -/
def ensureRepo (statOk : Str → Bool) (home : Option Str)
    (initResult : Except Unit Unit) (repo : Str) : Except Unit Unit × Nat :=
  let repoPath := expandUser home repo
  if statOk (goJoin repoPath "config".toList) then (.ok (), 0)
  else (initResult, 1)

/-- A concrete home directory used by the concrete scenarios below. -/
def homeU : Str := "/home/u".toList

/-- Scenario for C1: both environment variables set, Pastebin failing, and
a local cache file supplying a non-empty repository. -/
def c1World : World :=
  ⟨some homeU, some "envrepo".toList, some "envpass".toList, .error (),
   .content (some [(("repo".toList : Str), JVal.jstr "filerepo".toList)])⟩

/-- Scenario for C2: repository environment variable set, password unset,
Pastebin supplying both fields, and a local cache file supplying a
non-empty password. -/
def c2World : World :=
  ⟨some homeU, some "envrepo".toList, none,
   .ok [(keyResticRepo, JVal.jstr "pb-repo".toList),
        (keyResticPassword, JVal.jstr "pb-pass".toList)],
   .content (some [(("password".toList : Str), JVal.jstr "filepass".toList)])⟩

/-- Scenario for C4: no environment variables, Pastebin failing, local
cache file absent. -/
def c4World : World := ⟨some homeU, none, none, .error (), .notExist⟩

/-- Scenario for C5: Pastebin succeeds with an empty paths array. -/
def c5World : World :=
  ⟨some homeU, none, none, .ok [(keyPaths, JVal.jarr [])], .readError⟩

/-- Scenario for C6: a configuration resolved from an environment where
the repository variable is set to the empty string. -/
def c6ResolvedCfg : Cfg :=
  (getConfig ⟨some homeU, some [], some "p".toList, .error (), .readError⟩).cfg

/-- Second resolution of C6: fresh process, no environment variables, an
unreachable Pastebin, and the cache file written from c6ResolvedCfg. -/
def c6SecondWorld : World :=
  ⟨some homeU, none, none, .error (), .content (some (marshalConfig c6ResolvedCfg))⟩

/-- The expected asset name of C7 on linux and amd64. -/
def c7Target : Str := targetAssetName "v1.0.0".toList "linux".toList "amd64".toList

/-- Release metadata of C7 whose only asset matches the target name but
carries an empty download URL. -/
def c7Release : Release := ⟨"v1.0.0".toList, [⟨c7Target, []⟩]⟩

/-- Release metadata whose only asset matches the target name and carries
a non-empty download URL. -/
def goodRelease : Release :=
  ⟨"v1.0.0".toList,
   [⟨"restic_1.0.0_linux_amd64.bz2".toList, "https://dl/a".toList⟩]⟩

lemma pbApplyRepo_fields (pb : JObj) (rs : Bool) (cfg : Cfg) :
    (pbApplyRepo pb rs cfg).password = cfg.password ∧
    (pbApplyRepo pb rs cfg).paths = cfg.paths := by
  unfold pbApplyRepo
  cases rs with
  | true => exact ⟨rfl, rfl⟩
  | false =>
    cases List.lookup keyResticRepo pb with
    | none => exact ⟨rfl, rfl⟩
    | some v => cases v <;> exact ⟨rfl, rfl⟩

lemma pbApplyRepo_true (pb : JObj) (cfg : Cfg) : pbApplyRepo pb true cfg = cfg := rfl

lemma pbApplyPassword_fields (pb : JObj) (ps : Bool) (cfg : Cfg) :
    (pbApplyPassword pb ps cfg).repo = cfg.repo ∧
    (pbApplyPassword pb ps cfg).paths = cfg.paths := by
  unfold pbApplyPassword
  cases ps with
  | true => exact ⟨rfl, rfl⟩
  | false =>
    cases List.lookup keyResticPassword pb with
    | none => exact ⟨rfl, rfl⟩
    | some v => cases v <;> exact ⟨rfl, rfl⟩

lemma pbApplyPassword_false_of_lookup (pb : JObj) (cfg : Cfg) (vp : Str)
    (h : List.lookup keyResticPassword pb = some (JVal.jstr vp)) :
    (pbApplyPassword pb false cfg).password = vp := by
  unfold pbApplyPassword
  rw [h]
  rfl

lemma pbApplyPaths_fields (pb : JObj) (cfg : Cfg) :
    (pbApplyPaths pb cfg).repo = cfg.repo ∧
    (pbApplyPaths pb cfg).password = cfg.password := by
  unfold pbApplyPaths
  cases List.lookup keyPaths pb with
  | none => exact ⟨rfl, rfl⟩
  | some v =>
    cases v with
    | jstr s => exact ⟨rfl, rfl⟩
    | jother => exact ⟨rfl, rfl⟩
    | jarr xs =>
      by_cases h : (collectStringPaths xs).length > 0 <;> simp [h]

lemma pbApplyPaths_of_lookup (pb : JObj) (cfg : Cfg) (v : List JVal)
    (h : List.lookup keyPaths pb = some (JVal.jarr v))
    (hne : collectStringPaths v ≠ []) :
    (pbApplyPaths pb cfg).paths = collectStringPaths v := by
  unfold pbApplyPaths
  rw [h]
  simp [List.length_pos.mpr hne]

lemma pbApplyPushoverToken_fields (pb : JObj) (cfg : Cfg) :
    (pbApplyPushoverToken pb cfg).repo = cfg.repo ∧
    (pbApplyPushoverToken pb cfg).password = cfg.password ∧
    (pbApplyPushoverToken pb cfg).paths = cfg.paths := by
  unfold pbApplyPushoverToken
  cases List.lookup keyPushoverToken pb with
  | none => exact ⟨rfl, rfl, rfl⟩
  | some v => cases v <;> exact ⟨rfl, rfl, rfl⟩

lemma pbApplyPushoverUser_fields (pb : JObj) (cfg : Cfg) :
    (pbApplyPushoverUser pb cfg).repo = cfg.repo ∧
    (pbApplyPushoverUser pb cfg).password = cfg.password ∧
    (pbApplyPushoverUser pb cfg).paths = cfg.paths := by
  unfold pbApplyPushoverUser
  cases List.lookup keyPushoverUser pb with
  | none => exact ⟨rfl, rfl, rfl⟩
  | some v => cases v <;> exact ⟨rfl, rfl, rfl⟩

lemma pbApplyEmailServer_fields (pb : JObj) (cfg : Cfg) :
    (pbApplyEmailServer pb cfg).repo = cfg.repo ∧
    (pbApplyEmailServer pb cfg).password = cfg.password ∧
    (pbApplyEmailServer pb cfg).paths = cfg.paths := by
  unfold pbApplyEmailServer
  cases List.lookup keyEmailServer pb with
  | none => exact ⟨rfl, rfl, rfl⟩
  | some v => cases v <;> exact ⟨rfl, rfl, rfl⟩

lemma pbApplyEmailUser_fields (pb : JObj) (cfg : Cfg) :
    (pbApplyEmailUser pb cfg).repo = cfg.repo ∧
    (pbApplyEmailUser pb cfg).password = cfg.password ∧
    (pbApplyEmailUser pb cfg).paths = cfg.paths := by
  unfold pbApplyEmailUser
  cases List.lookup keyEmailUser pb with
  | none => exact ⟨rfl, rfl, rfl⟩
  | some v => cases v <;> exact ⟨rfl, rfl, rfl⟩

lemma pbApplyEmailPassword_fields (pb : JObj) (cfg : Cfg) :
    (pbApplyEmailPassword pb cfg).repo = cfg.repo ∧
    (pbApplyEmailPassword pb cfg).password = cfg.password ∧
    (pbApplyEmailPassword pb cfg).paths = cfg.paths := by
  unfold pbApplyEmailPassword
  cases List.lookup keyEmailPassword pb with
  | none => exact ⟨rfl, rfl, rfl⟩
  | some v => cases v <;> exact ⟨rfl, rfl, rfl⟩

lemma pbApplyEmailFrom_fields (pb : JObj) (cfg : Cfg) :
    (pbApplyEmailFrom pb cfg).repo = cfg.repo ∧
    (pbApplyEmailFrom pb cfg).password = cfg.password ∧
    (pbApplyEmailFrom pb cfg).paths = cfg.paths := by
  unfold pbApplyEmailFrom
  cases List.lookup keyEmailFrom pb with
  | none => exact ⟨rfl, rfl, rfl⟩
  | some v => cases v <;> exact ⟨rfl, rfl, rfl⟩

lemma pbApplyEmailTo_fields (pb : JObj) (cfg : Cfg) :
    (pbApplyEmailTo pb cfg).repo = cfg.repo ∧
    (pbApplyEmailTo pb cfg).password = cfg.password ∧
    (pbApplyEmailTo pb cfg).paths = cfg.paths := by
  unfold pbApplyEmailTo
  cases List.lookup keyEmailTo pb with
  | none => exact ⟨rfl, rfl, rfl⟩
  | some v => cases v <;> exact ⟨rfl, rfl, rfl⟩

lemma applyPastebin_repo (pb : JObj) (rs ps : Bool) (cfg : Cfg) :
    (applyPastebin pb rs ps cfg).repo = (pbApplyRepo pb rs cfg).repo := by
  unfold applyPastebin
  rw [(pbApplyEmailTo_fields _ _).1, (pbApplyEmailFrom_fields _ _).1,
      (pbApplyEmailPassword_fields _ _).1, (pbApplyEmailUser_fields _ _).1,
      (pbApplyEmailServer_fields _ _).1, (pbApplyPushoverUser_fields _ _).1,
      (pbApplyPushoverToken_fields _ _).1, (pbApplyPaths_fields _ _).1,
      (pbApplyPassword_fields _ _ _).1]

lemma applyPastebin_password (pb : JObj) (rs ps : Bool) (cfg : Cfg) :
    (applyPastebin pb rs ps cfg).password =
      (pbApplyPassword pb ps (pbApplyRepo pb rs cfg)).password := by
  unfold applyPastebin
  rw [(pbApplyEmailTo_fields _ _).2.1, (pbApplyEmailFrom_fields _ _).2.1,
      (pbApplyEmailPassword_fields _ _).2.1, (pbApplyEmailUser_fields _ _).2.1,
      (pbApplyEmailServer_fields _ _).2.1, (pbApplyPushoverUser_fields _ _).2.1,
      (pbApplyPushoverToken_fields _ _).2.1, (pbApplyPaths_fields _ _).2]

lemma applyPastebin_paths (pb : JObj) (rs ps : Bool) (cfg : Cfg) :
    (applyPastebin pb rs ps cfg).paths =
      (pbApplyPaths pb (pbApplyPassword pb ps (pbApplyRepo pb rs cfg))).paths := by
  unfold applyPastebin
  rw [(pbApplyEmailTo_fields _ _).2.2, (pbApplyEmailFrom_fields _ _).2.2,
      (pbApplyEmailPassword_fields _ _).2.2, (pbApplyEmailUser_fields _ _).2.2,
      (pbApplyEmailServer_fields _ _).2.2, (pbApplyPushoverUser_fields _ _).2.2,
      (pbApplyPushoverToken_fields _ _).2.2]

lemma applyFile_repo (f c : Cfg) :
    (applyFile f c).repo = (if f.repo = ([] : Str) then c.repo else f.repo) := by
  unfold applyFile
  by_cases h1 : f.repo = ([] : Str) <;>
    by_cases h2 : f.password = ([] : Str) <;>
      by_cases h3 : f.paths.length > 0 <;> simp [h1, h2, h3]

lemma applyFile_password (f c : Cfg) :
    (applyFile f c).password = (if f.password = ([] : Str) then c.password else f.password) := by
  unfold applyFile
  by_cases h1 : f.repo = ([] : Str) <;>
    by_cases h2 : f.password = ([] : Str) <;>
      by_cases h3 : f.paths.length > 0 <;> simp [h1, h2, h3]

lemma applyFile_paths (f c : Cfg) :
    (applyFile f c).paths = (if f.paths.length > 0 then f.paths else c.paths) := by
  unfold applyFile
  by_cases h1 : f.repo = ([] : Str) <;>
    by_cases h2 : f.password = ([] : Str) <;>
      by_cases h3 : f.paths.length > 0 <;> simp [h1, h2, h3]

lemma asStrList_map (l : List Str) : asStrList (l.map JVal.jstr) = some l := by
  induction l with
  | nil => rfl
  | cons h t ih => simp [asStrList, ih]

lemma unmarshal_marshal (c : Cfg) : unmarshalConfig (marshalConfig c) = some c := by
  have hp : jPathsField (marshalConfig c) = some c.paths := by
    show asStrList (c.paths.map JVal.jstr) = some c.paths
    exact asStrList_map c.paths
  unfold unmarshalConfig
  rw [hp]
  rfl

lemma findAssetURL_of_no_match (l : List Asset) (t : Str)
    (h : ∀ a ∈ l, a.name ≠ t) : findAssetURL l t = [] := by
  induction l with
  | nil => rfl
  | cons a rest ih =>
    unfold findAssetURL
    rw [if_neg (h a (by simp))]
    exact ih (fun b hb => h b (by simp [hb]))

lemma findAssetURL_first (l1 : List Asset) (a : Asset) (l2 : List Asset) (t : Str)
    (h1 : ∀ b ∈ l1, b.name ≠ t) (ha : a.name = t) :
    findAssetURL (l1 ++ a :: l2) t = a.browserDownloadURL := by
  induction l1 with
  | nil => simpa [findAssetURL] using fun hn => absurd ha hn
  | cons b rest ih =>
    unfold findAssetURL
    simp only [List.cons_append]
    rw [if_neg (h1 b (by simp))]
    exact ih (fun x hx => h1 x (by simp [hx]))

lemma zipWriteLoop_of_no_match (files : List (Str × Str))
    (h : ∀ f ∈ files, f.1 ≠ "restic.exe".toList) : zipWriteLoop files = none := by
  induction files with
  | nil => rfl
  | cons f rest ih =>
    unfold zipWriteLoop
    rw [if_neg (h f (by simp))]
    exact ih (fun g hg => h g (by simp [hg]))

lemma zipWriteLoop_first (l1 : List (Str × Str)) (g : Str × Str) (l2 : List (Str × Str))
    (h1 : ∀ f ∈ l1, f.1 ≠ "restic.exe".toList) (hg : g.1 = "restic.exe".toList) :
    zipWriteLoop (l1 ++ g :: l2) = some g.2 := by
  induction l1 with
  | nil => simp [zipWriteLoop, hg]
  | cons f rest ih =>
    unfold zipWriteLoop
    simp only [List.cons_append]
    rw [if_neg (h1 f (by simp))]
    exact ih (fun x hx => h1 x (by simp [hx]))

lemma hasPfx_tilde (p : Str) : hasPfx p ['~'] = true ↔ p.head? = some '~' := by
  cases p with
  | nil => simp [hasPfx, List.isPrefixOf]
  | cons c cs =>
    simp only [hasPfx, List.isPrefixOf, List.isPrefixOf_nil_left, Bool.and_true, beq_iff_eq,
      List.head?_cons, Option.some.injEq]
    exact eq_comm

/-- C1, as stated, is false on the code: with both environment variables
set no Pastebin fetch happens, yet a local cache file carrying a non-empty
repository still overrides the environment value, so the resulting
repository does not equal the environment value. -/
theorem c1_counterexample :
    c1World.repoEnv = some "envrepo".toList ∧
    c1World.passEnv = some "envpass".toList ∧
    (getConfig c1World).pastebinFetches = 0 ∧
    (getConfig c1World).cfg.repo ≠ "envrepo".toList := by
  refine ⟨rfl, rfl, rfl, ?_⟩
  decide

/-- C1 (amended): for every state in which both environment variables are
present (even empty), getConfig performs no Pastebin fetch, and provided
the local cache file supplies no non-empty repository or password (absent,
unreadable, undecodable, or with those fields empty), the resulting
repository and password equal the environment values. -/
theorem getConfig_bothEnv (home : Option Str) (r p : Str)
    (pbr : Except Unit JObj) (fs : FileState)
    (hf : ∀ j c, fs = FileState.content (some j) → unmarshalConfig j = some c →
      c.repo = ([] : Str) ∧ c.password = ([] : Str)) :
    (getConfig ⟨home, some r, some p, pbr, fs⟩).pastebinFetches = 0 ∧
    (getConfig ⟨home, some r, some p, pbr, fs⟩).cfg.repo = r ∧
    (getConfig ⟨home, some r, some p, pbr, fs⟩).cfg.password = p := by
  cases fs with
  | notExist => exact ⟨rfl, rfl, rfl⟩
  | readError => exact ⟨rfl, rfl, rfl⟩
  | content dec =>
    cases dec with
    | none => exact ⟨rfl, rfl, rfl⟩
    | some j =>
      cases hu : unmarshalConfig j with
      | none => simp [getConfig, hu]
      | some c =>
        obtain ⟨h1, h2⟩ := hf j c rfl hu
        simp [getConfig, hu, applyFile_repo, applyFile_password, h1, h2]

/-- Witness for the amended C1 at a concrete state. -/
theorem getConfig_bothEnv_witness :
    (getConfig ⟨some homeU, some "envrepo".toList, some "envpass".toList,
      .error (), .readError⟩).pastebinFetches = 0 ∧
    (getConfig ⟨some homeU, some "envrepo".toList, some "envpass".toList,
      .error (), .readError⟩).cfg.repo = "envrepo".toList ∧
    (getConfig ⟨some homeU, some "envrepo".toList, some "envpass".toList,
      .error (), .readError⟩).cfg.password = "envpass".toList :=
  getConfig_bothEnv (some homeU) "envrepo".toList "envpass".toList (.error ())
    .readError (fun j c h => nomatch h)

/-- C2, as stated, is false on the code: with the repository environment
variable set, the password one unset, and the Pastebin document supplying
both fields, a local cache file carrying a non-empty password still
overrides the Pastebin password. -/
theorem c2_counterexample :
    c2World.repoEnv = some "envrepo".toList ∧
    c2World.passEnv = none ∧
    c2World.pastebin = .ok [(keyResticRepo, JVal.jstr "pb-repo".toList),
      (keyResticPassword, JVal.jstr "pb-pass".toList)] ∧
    (getConfig c2World).cfg.repo = "envrepo".toList ∧
    (getConfig c2World).cfg.password ≠ "pb-pass".toList := by
  refine ⟨rfl, rfl, rfl, by decide, by decide⟩

/-- C2 (amended): per-field precedence of getConfig: with the repository
environment variable set, the password one unset, and the Pastebin
document supplying both fields as strings, the result keeps the
environment repository while taking the Pastebin password, provided the
local cache file supplies no non-empty repository or password. -/
theorem getConfig_perField (home : Option Str) (r vr vp : Str) (pb : JObj) (fs : FileState)
    (hr : List.lookup keyResticRepo pb = some (JVal.jstr vr))
    (hp : List.lookup keyResticPassword pb = some (JVal.jstr vp))
    (hf : ∀ j c, fs = FileState.content (some j) → unmarshalConfig j = some c →
      c.repo = ([] : Str) ∧ c.password = ([] : Str)) :
    (getConfig ⟨home, some r, none, .ok pb, fs⟩).cfg.repo = r ∧
    (getConfig ⟨home, some r, none, .ok pb, fs⟩).cfg.password = vp := by
  have hrepo : (applyPastebin pb true false
      { defaultEmbeddedConfig (home.getD []) with repo := r }).repo = r := by
    rw [applyPastebin_repo, pbApplyRepo_true]
  have hpass : (applyPastebin pb true false
      { defaultEmbeddedConfig (home.getD []) with repo := r }).password = vp := by
    rw [applyPastebin_password, pbApplyPassword_false_of_lookup _ _ _ hp]
  cases fs with
  | notExist => exact ⟨hrepo, hpass⟩
  | readError => exact ⟨hrepo, hpass⟩
  | content dec =>
    cases dec with
    | none => exact ⟨hrepo, hpass⟩
    | some j =>
      cases hu : unmarshalConfig j with
      | none =>
        refine ⟨?_, ?_⟩ <;> simp [getConfig, hu] <;> [exact hrepo; exact hpass]
      | some c =>
        obtain ⟨h1, h2⟩ := hf j c rfl hu
        refine ⟨?_, ?_⟩ <;> simp [getConfig, hu, applyFile_repo, applyFile_password, h1, h2] <;>
          [exact hrepo; exact hpass]

/-- Witness for the amended C2 at a concrete state. -/
theorem getConfig_perField_witness :
    (getConfig ⟨some homeU, some "envrepo".toList, none,
      .ok [(keyResticRepo, JVal.jstr "pb-repo".toList),
           (keyResticPassword, JVal.jstr "pb-pass".toList)], .readError⟩).cfg.repo =
      "envrepo".toList ∧
    (getConfig ⟨some homeU, some "envrepo".toList, none,
      .ok [(keyResticRepo, JVal.jstr "pb-repo".toList),
           (keyResticPassword, JVal.jstr "pb-pass".toList)], .readError⟩).cfg.password =
      "pb-pass".toList :=
  getConfig_perField (some homeU) "envrepo".toList "pb-repo".toList "pb-pass".toList
    _ .readError rfl rfl (fun j c h => nomatch h)

/-- C3: getConfig is total (its result type carries no error, mirroring
the error-free Go signature), and when the environment variables are
unset, the Pastebin fetch fails, and the local cache file is absent,
unreadable, or undecodable, the result is exactly the embedded defaults:
test repository, test password and the three default user directories. -/
theorem getConfig_defaults (home : Option Str) (fs : FileState)
    (hf : ∀ j c, fs = FileState.content (some j) → unmarshalConfig j ≠ some c) :
    (getConfig ⟨home, none, none, .error (), fs⟩).cfg =
      defaultEmbeddedConfig (home.getD []) ∧
    (getConfig ⟨home, none, none, .error (), fs⟩).cfg.repo = "~/tmp/test-backup".toList ∧
    (getConfig ⟨home, none, none, .error (), fs⟩).cfg.password = "test password".toList ∧
    (getConfig ⟨home, none, none, .error (), fs⟩).cfg.paths =
      [goJoin (home.getD []) "Documents".toList,
       goJoin (home.getD []) "Pictures".toList,
       goJoin (home.getD []) "Desktop".toList] := by
  cases fs with
  | notExist => exact ⟨rfl, rfl, rfl, rfl⟩
  | readError => exact ⟨rfl, rfl, rfl, rfl⟩
  | content dec =>
    cases dec with
    | none => exact ⟨rfl, rfl, rfl, rfl⟩
    | some j =>
      cases hu : unmarshalConfig j with
      | none => simp [getConfig, hu, defaultEmbeddedConfig]
      | some c => exact absurd hu (hf j c rfl)

/-- Witness for C3 at a concrete state. -/
theorem getConfig_defaults_witness :
    (getConfig ⟨some homeU, none, none, .error (), .readError⟩).cfg =
      defaultEmbeddedConfig homeU ∧
    (getConfig ⟨some homeU, none, none, .error (), .readError⟩).cfg.repo =
      "~/tmp/test-backup".toList ∧
    (getConfig ⟨some homeU, none, none, .error (), .readError⟩).cfg.password =
      "test password".toList ∧
    (getConfig ⟨some homeU, none, none, .error (), .readError⟩).cfg.paths =
      [goJoin homeU "Documents".toList, goJoin homeU "Pictures".toList,
       goJoin homeU "Desktop".toList] :=
  getConfig_defaults (some homeU) .readError (fun j c h => nomatch h)

/-- C4, as stated, is false on the code: with the cache file absent a
snapshot is written, but it serializes the whole config struct, so its
keys are not just repository, password and paths: the notification-channel
keys appear as well. -/
theorem c4_counterexample :
    c4World.file = FileState.notExist ∧
    ((getConfig c4World).written.getD []).map Prod.fst ≠
      ["repo".toList, "password".toList, keyPaths] ∧
    keyPushoverToken ∈ ((getConfig c4World).written.getD []).map Prod.fst := by
  refine ⟨rfl, by decide, by decide⟩

/-- C4 (amended): when the local cache file is absent at resolution time,
getConfig writes a snapshot of the resolved configuration serializing
every field of the config struct: repository, password, paths, and all
seven notification-channel fields. -/
theorem getConfig_writes_snapshot (home re pe : Option Str) (pbr : Except Unit JObj) :
    (getConfig ⟨home, re, pe, pbr, .notExist⟩).written =
      some (marshalConfig (getConfig ⟨home, re, pe, pbr, .notExist⟩).cfg) ∧
    (marshalConfig (getConfig ⟨home, re, pe, pbr, .notExist⟩).cfg).map Prod.fst =
      ["repo".toList, "password".toList, keyPaths, keyPushoverToken, keyPushoverUser,
       keyEmailServer, keyEmailUser, keyEmailPassword, keyEmailFrom, keyEmailTo] :=
  ⟨rfl, rfl⟩

/-- C5, as stated, is false on the code: a successfully fetched Pastebin
document whose paths field is the empty array does not replace the
resolved paths, because the gathered list is empty and the length guard
rejects it. -/
theorem c5_counterexample :
    c5World.pastebin = .ok [(keyPaths, JVal.jarr [])] ∧
    (getConfig c5World).cfg.paths ≠ ([] : List Str) ∧
    (getConfig c5World).cfg.paths = (defaultEmbeddedConfig homeU).paths := by
  refine ⟨rfl, by decide, by decide⟩

/-- C5 (amended): when the Pastebin document is fetched and decoded, its
paths field is an array, and the string entries gathered from it (skipping
entries of any other type) form a non-empty list, getConfig adopts exactly
those entries as the paths, whichever single environment variable was set,
provided the local cache file supplies no non-empty paths; an empty or
all-malformed array leaves the paths unchanged. -/
theorem getConfig_adopts_remote_paths (home : Option Str) (re pe : Option Str)
    (pb : JObj) (v : List JVal) (fs : FileState)
    (hnb : re.isSome = false ∨ pe.isSome = false)
    (hv : List.lookup keyPaths pb = some (JVal.jarr v))
    (hne : collectStringPaths v ≠ [])
    (hf : ∀ j c, fs = FileState.content (some j) → unmarshalConfig j = some c →
      c.paths = ([] : List Str)) :
    (getConfig ⟨home, re, pe, .ok pb, fs⟩).cfg.paths = collectStringPaths v := by
  have hcond : (re.isSome && pe.isSome) = false := by
    cases hnb with
    | inl h => simp [h]
    | inr h => simp [h]
  have hpaths : ∀ c : Cfg, (applyPastebin pb re.isSome pe.isSome c).paths =
      collectStringPaths v := by
    intro c
    rw [applyPastebin_paths, pbApplyPaths_of_lookup _ _ _ hv hne]
  cases fs with
  | notExist => simp [getConfig, hcond, hpaths]
  | readError => simp [getConfig, hcond, hpaths]
  | content dec =>
    cases dec with
    | none => simp [getConfig, hcond, hpaths]
    | some j =>
      cases hu : unmarshalConfig j with
      | none => simp [getConfig, hcond, hpaths, hu]
      | some c =>
        have h1 := hf j c rfl hu
        simp [getConfig, hcond, hpaths, hu, applyFile_paths, h1]

/-- Witness for the amended C5 at a concrete state. -/
theorem getConfig_adopts_remote_paths_witness :
    (getConfig ⟨some homeU, none, none,
      .ok [(keyPaths, JVal.jarr [JVal.jstr "/a".toList, JVal.jother,
        JVal.jstr "/b".toList])], .readError⟩).cfg.paths =
      ["/a".toList, "/b".toList] :=
  getConfig_adopts_remote_paths (some homeU) none none
    [(keyPaths, JVal.jarr [JVal.jstr "/a".toList, JVal.jother, JVal.jstr "/b".toList])]
    [JVal.jstr "/a".toList, JVal.jother, JVal.jstr "/b".toList] .readError
    (Or.inl rfl) rfl (by decide) (fun _ _ h => nomatch h)

/-- C6, as stated, is false on the code: a configuration resolved with the
repository environment variable set to the empty string has an empty
repository, and re-resolving from its written cache file (no environment,
unreachable Pastebin) yields the default repository instead, because an
empty field in the file does not override. -/
theorem c6_counterexample :
    c6ResolvedCfg.repo = ([] : Str) ∧
    c6SecondWorld.file = FileState.content (some (marshalConfig c6ResolvedCfg)) ∧
    (getConfig c6SecondWorld).cfg.repo ≠ c6ResolvedCfg.repo := by
  refine ⟨by decide, rfl, by decide⟩

/-- C6 (amended): for every resolved configuration whose repository,
password and paths are all non-empty, writing it to the cache file and
resolving again with no environment variables and a failing Pastebin fetch
reproduces the identical repository, password and paths. -/
theorem getConfig_roundTrip (home : Option Str) (cfg1 : Cfg)
    (hr : cfg1.repo ≠ ([] : Str)) (hp : cfg1.password ≠ ([] : Str))
    (hps : cfg1.paths ≠ ([] : List Str)) :
    (getConfig ⟨home, none, none, .error (),
      .content (some (marshalConfig cfg1))⟩).cfg.repo = cfg1.repo ∧
    (getConfig ⟨home, none, none, .error (),
      .content (some (marshalConfig cfg1))⟩).cfg.password = cfg1.password ∧
    (getConfig ⟨home, none, none, .error (),
      .content (some (marshalConfig cfg1))⟩).cfg.paths = cfg1.paths := by
  have hu := unmarshal_marshal cfg1
  refine ⟨?_, ?_, ?_⟩ <;>
    simp [getConfig, hu, applyFile_repo, applyFile_password, applyFile_paths,
      hr, hp, List.length_pos.mpr hps]

/-- Witness for the amended C6 at a concrete configuration. -/
theorem getConfig_roundTrip_witness :
    (getConfig ⟨some homeU, none, none, .error (),
      .content (some (marshalConfig ⟨"r".toList, "p".toList, ["/a".toList],
        [], [], [], [], [], [], []⟩))⟩).cfg.repo = "r".toList ∧
    (getConfig ⟨some homeU, none, none, .error (),
      .content (some (marshalConfig ⟨"r".toList, "p".toList, ["/a".toList],
        [], [], [], [], [], [], []⟩))⟩).cfg.password = "p".toList ∧
    (getConfig ⟨some homeU, none, none, .error (),
      .content (some (marshalConfig ⟨"r".toList, "p".toList, ["/a".toList],
        [], [], [], [], [], [], []⟩))⟩).cfg.paths = ["/a".toList] :=
  getConfig_roundTrip (some homeU) ⟨"r".toList, "p".toList, ["/a".toList],
    [], [], [], [], [], [], []⟩ (by decide) (by decide) (by decide)

/-- C7, as stated, is false on the code in one corner: when the first
asset whose name matches the expected name carries an empty download URL,
the resolver reports the not-found error instead of returning that URL,
because it conflates the empty scanned URL with no match. -/
theorem c7_counterexample :
    c7Release.tagName = "v1.0.0".toList ∧
    c7Release.assets = [⟨c7Target, []⟩] ∧
    c7Target = targetAssetName c7Release.tagName "linux".toList "amd64".toList ∧
    resolveAssetURL c7Release "linux".toList "amd64".toList = .error c7Target :=
  ⟨rfl, rfl, rfl, rfl⟩

/-- C7 (amended): for release metadata tagged v1.0.0 the expected asset
name is exactly restic_1.0.0_os_arch with the zip extension on windows and
bz2 elsewhere; when no asset name matches it, resolution fails with the
not-found error; and the URL of the first matching asset in list order is
returned provided that URL is non-empty (a first match with an empty URL
is also reported as not found). -/
theorem release_resolution (rel : Release) (goos arch : Str)
    (hv : rel.tagName = "v1.0.0".toList) :
    targetAssetName rel.tagName goos arch =
      "restic_1.0.0_".toList ++ goos ++ "_".toList ++ arch ++
        (if goos = "windows".toList then ".zip".toList else ".bz2".toList) ∧
    ((∀ a ∈ rel.assets, a.name ≠ targetAssetName rel.tagName goos arch) →
      resolveAssetURL rel goos arch = .error (targetAssetName rel.tagName goos arch)) ∧
    (∀ l1 a l2, rel.assets = l1 ++ a :: l2 →
      (∀ b ∈ l1, b.name ≠ targetAssetName rel.tagName goos arch) →
      a.name = targetAssetName rel.tagName goos arch →
      a.browserDownloadURL ≠ ([] : Str) →
      resolveAssetURL rel goos arch = .ok a.browserDownloadURL) := by
  refine ⟨?_, ?_, ?_⟩
  · rw [hv]
    rfl
  · intro hnone
    simp only [resolveAssetURL]
    rw [findAssetURL_of_no_match _ _ hnone]
    rfl
  · intro l1 a l2 hsplit h1 ha hurl
    simp only [resolveAssetURL]
    rw [hsplit, findAssetURL_first _ _ _ _ h1 ha, if_neg hurl]

/-- Witness for the amended C7 at concrete release metadata. -/
theorem release_resolution_witness :
    goodRelease.tagName = "v1.0.0".toList ∧
    resolveAssetURL goodRelease "linux".toList "amd64".toList = .ok "https://dl/a".toList :=
  ⟨rfl, (release_resolution goodRelease "linux".toList "amd64".toList rfl).2.2
    [] ⟨"restic_1.0.0_linux_amd64.bz2".toList, "https://dl/a".toList⟩ [] rfl
    (by simp) (by decide) (by decide)⟩

/-- C8: the zip extraction loop returns no written content, a silent
no-op rather than a failure, for every archive index with no entry named
restic.exe, and when such entries exist it writes the content of the first
one in index order to the destination. -/
theorem zip_extraction (files : List (Str × Str)) :
    ((∀ f ∈ files, f.1 ≠ "restic.exe".toList) → zipWriteLoop files = none) ∧
    (∀ l1 g l2, files = l1 ++ g :: l2 →
      (∀ f ∈ l1, f.1 ≠ "restic.exe".toList) →
      g.1 = "restic.exe".toList →
      zipWriteLoop files = some g.2) := by
  refine ⟨fun h => zipWriteLoop_of_no_match files h, ?_⟩
  intro l1 g l2 hsplit h1 hg
  rw [hsplit]
  exact zipWriteLoop_first _ _ _ h1 hg

/-- Witness for C8 at concrete archive indices. -/
theorem zip_extraction_witness :
    zipWriteLoop [(("doc.txt".toList : Str), "x".toList)] = none ∧
    zipWriteLoop [(("doc.txt".toList : Str), "x".toList),
      (("restic.exe".toList : Str), "bin".toList)] = some "bin".toList :=
  ⟨(zip_extraction _).1 (by decide),
   (zip_extraction _).2 [(("doc.txt".toList : Str), "x".toList)]
     (("restic.exe".toList : Str), "bin".toList) [] rfl (by decide) rfl⟩

/-- C9: ensureRepo is idempotent: when the config marker file already
exists inside the expanded repository directory it succeeds without
invoking the external tool, and two calls against the same
already-initialized destination invoke the tool at most once in total. -/
theorem ensureRepo_idempotent (statOk : Str → Bool) (home : Option Str)
    (initResult : Except Unit Unit) (repo : Str)
    (h : statOk (goJoin (expandUser home repo) "config".toList) = true) :
    ensureRepo statOk home initResult repo = (.ok (), 0) ∧
    (ensureRepo statOk home initResult repo).2 +
      (ensureRepo statOk home initResult repo).2 ≤ 1 := by
  simp only [ensureRepo]
  rw [if_pos h]
  exact ⟨rfl, Nat.zero_le 1⟩

/-- Witness for C9 at a concrete state where the marker exists. -/
theorem ensureRepo_idempotent_witness :
    ensureRepo (fun _ => true) (some homeU) (.ok ()) "~/tmp/test-backup".toList =
      (.ok (), 0) ∧
    (ensureRepo (fun _ => true) (some homeU) (.ok ()) "~/tmp/test-backup".toList).2 +
      (ensureRepo (fun _ => true) (some homeU) (.ok ()) "~/tmp/test-backup".toList).2 ≤ 1 :=
  ensureRepo_idempotent (fun _ => true) (some homeU) (.ok ())
    "~/tmp/test-backup".toList rfl

/-- C10: expandUser leaves every path whose first character is not a tilde
unchanged; a path of the form tilde-slash-rest is joined under the home
directory as rest; and a path of the form tilde-name with no slash is
joined under the home directory with its literal tilde-name component
intact, because only a tilde-slash segment is stripped. -/
theorem expandUser_spec (h p : Str) :
    (∀ hm : Option Str, p.head? ≠ some '~' → expandUser hm p = p) ∧
    (∀ rest : Str, p = '~' :: '/' :: rest → expandUser (some h) p = goJoin h rest) ∧
    (∀ rest : Str, p = '~' :: rest → rest.head? ≠ some '/' →
      expandUser (some h) p = goJoin h ('~' :: rest)) := by
  refine ⟨?_, ?_, ?_⟩
  · intro hm hne
    unfold expandUser
    rw [if_neg fun hb => hne ((hasPfx_tilde p).mp hb)]
  · intro rest hrest
    subst hrest
    unfold expandUser hasPfx trimPfx
    simp [List.isPrefixOf]
  · intro rest hrest hns
    subst hrest
    unfold expandUser hasPfx trimPfx
    cases rest with
    | nil => simp [List.isPrefixOf]
    | cons c cs =>
      have hc : c ≠ '/' := fun hcc => hns (by simp [hcc])
      simp [List.isPrefixOf, hc, Ne.symm hc]

/-- Witness for C10 at concrete paths. -/
theorem expandUser_spec_witness :
    expandUser (some "/x".toList) "rel/p".toList = "rel/p".toList ∧
    expandUser (some homeU) "~/docs".toList = goJoin homeU "docs".toList ∧
    expandUser (some homeU) "~alice".toList = goJoin homeU "~alice".toList :=
  ⟨(expandUser_spec "/x".toList "rel/p".toList).1 (some "/x".toList) (by decide),
   (expandUser_spec homeU "~/docs".toList).2.1 "docs".toList rfl,
   (expandUser_spec homeU "~alice".toList).2.2 "alice".toList rfl (by decide)⟩

end Backup
